import Mathlib

/-!
Verification of the pandas_auto_join key-inference and merge engine.

The repository has two variants of the engine:
* the basic variant in `src/pandas_auto_join.py` (`join`, `__prepare`,
  `__join_key`, `__prepare_join_key`);
* the augmented variant in `src/pandas_auto_join/__init__.py` (`join`,
  `__extract_dtypes`, `__generate_similarity`, `__join_keys`).

Cell values are modelled by an explicit tagged type `Val` (numeric, text,
datetime) and a table is a named list of columns over nullable cells.
Pandas primitives that the repository calls but does not define
(`pd.to_numeric`, `pd.to_datetime`, `pd.merge`, `str()` rendering) are
modelled from the spec, each marked in its doc comment.  Everything else is
translated from the source files.
-/

deriving instance DecidableEq for Except

namespace PandasAutoJoin

/-- Tagged cell value: numeric, text or datetime.  Datetimes are modelled at
day granularity as an integer day code. -/
inductive Val where
  | vnum (q : ℚ)
  | vstr (s : String)
  | vdate (d : ℤ)
deriving DecidableEq

/-- A nullable cell (`None` models NaN / NaT). -/
abbrev Cell := Option Val

/-- A dataframe: an index name, a row count and named columns of cells. -/
structure Table where
  name : String
  nRows : ℕ
  cols : List (String × List Cell)
deriving DecidableEq

/-- Pandas column dtypes relevant to the engine. -/
inductive Dtype where
  | num
  | date
  | obj
deriving DecidableEq

/-- Structural character-list version of `String.startsWith` (the library
version relies on UTF-8 byte positions, which do not evaluate). -/
def strStartsWith (s pre : String) : Bool :=
  pre.data.isPrefixOf s.data

/-- Worker for `strRemoveAll`, scanning left to right with explicit fuel. -/
def strRemoveAllAux (pat : List Char) : List Char → ℕ → List Char
  | _, 0 => []
  | [], _ => []
  | c :: rest, fuel + 1 =>
    if pat ≠ [] ∧ pat.isPrefixOf (c :: rest) then
      strRemoveAllAux pat ((c :: rest).drop pat.length) fuel
    else c :: strRemoveAllAux pat rest fuel

/-- Structural model of Python `s.replace(pat, '')`: remove every
(non-overlapping, leftmost-first) occurrence of `pat` from `s`.  The
library's `String.replace` is defined by well-founded recursion, which does
not evaluate, so this structural version is used in its place. -/
def strRemoveAll (s pat : String) : String :=
  String.mk (strRemoveAllAux pat.data s.data s.data.length)

/-- Column names of a table (`df.columns`). -/
def Table.header (t : Table) : List String :=
  t.cols.map (fun c => c.1)

/-- Column lookup by name (`df[c]`); missing names give the empty column. -/
def Table.col (t : Table) (n : String) : List Cell :=
  ((t.cols.find? (fun c => c.1 == n)).map (fun c => c.2)).getD []

/-- Non-null values of a column (`series.dropna()`). -/
def dropna (vals : List Cell) : List Val :=
  vals.filterMap id

/-- Dtype of a column as pandas reports it after the engine's coercions:
numeric when every non-null cell is numeric (an all-null column is float,
hence numeric), datetime when every non-null cell is a datetime, otherwise
object. -/
def colDtype (vals : List Cell) : Dtype :=
  let nn := dropna vals
  if nn.all (fun v => match v with | .vnum _ => true | _ => false) then .num
  else if nn.all (fun v => match v with | .vdate _ => true | _ => false) then .date
  else .obj

/-- Digits of a non-empty all-digit character list as a number. -/
def digitsVal (cs : List Char) : Option ℕ :=
  if cs = [] then none
  else if cs.all (fun c => c.isDigit) then
    some (cs.foldl (fun acc c => acc * 10 + (c.toNat - 48)) 0)
  else none

/-- Modelled from the spec: the numeric-coercion grammar of the external
`pd.to_numeric` primitive (spec 4.1 step 1, "attempt numeric coercion"),
here plain decimal literals with optional sign and fraction part. -/
def parseDecimal (s : String) : Option ℚ :=
  let cs := s.data
  let sign : ℚ := if cs.head? = some '-' then -1 else 1
  let cs := if cs.head? = some '-' then cs.tail else cs
  let ip := cs.takeWhile (fun c => c ≠ '.')
  let rest := cs.dropWhile (fun c => c ≠ '.')
  match rest with
  | [] => (digitsVal ip).map (fun n => sign * (n : ℚ))
  | _ :: fp =>
    match digitsVal ip, digitsVal fp with
    | some a, some b => some (sign * ((a : ℚ) + (b : ℚ) / (10 : ℚ) ^ fp.length))
    | _, _ => none

/-- Modelled from the spec: the datetime-parsing grammar of the external
`pd.to_datetime` primitive (spec 4.1 step 2, "attempt datetime parsing"),
here ISO `YYYY-MM-DD` dates encoded as an integer day code. -/
def parseDateStr (s : String) : Option ℤ :=
  match s.data with
  | [a, b, c, d, '-', e, f, '-', g, h] =>
    match digitsVal [a, b, c, d], digitsVal [e, f], digitsVal [g, h] with
    | some y, some m, some dy =>
      if 1 ≤ m ∧ m ≤ 12 ∧ 1 ≤ dy ∧ dy ≤ 31 then
        some ((y : ℤ) * 10000 + (m : ℤ) * 100 + (dy : ℤ))
      else none
    | _, _, _ => none
  | _ => none

/-- Numeric coercion of one value; datetimes fail (pandas raises on them). -/
def parseNumVal : Val → Option ℚ
  | .vnum q => some q
  | .vstr s => parseDecimal s
  | .vdate _ => none

/-- Datetime coercion of one value; at spec level only text parses. -/
def parseDateVal : Val → Option ℤ
  | .vstr s => parseDateStr s
  | .vdate d => some d
  | .vnum _ => none

/-- Modelled from the spec: `str()` rendering of a cell value, used by the
representative-length filter.  Text renders as itself; numbers and dates by
their standard textual form. -/
def valStr : Val → String
  | .vstr s => s
  | .vnum q => toString q
  | .vdate d => toString d

/-- Rendering used by `__join_key.check_length`: `astype(str)` followed by
the literal (non-regex) `Series.replace` of the exact string "\s+" by the
empty string. -/
def strRep (v : Val) : String :=
  let s := valStr v
  if s = "\\s+" then "" else s

/-- Smallest most-frequent element of a list of numbers
(`series.mode()[0]`: pandas mode is sorted ascending, `[0]` is smallest). -/
def modeVal (l : List ℕ) : ℕ :=
  let top := (l.map (fun x => l.count x)).foldr Nat.max 0
  ((l.filter (fun x => l.count x == top)).min?).getD 0

/-- Representative string length of a column's non-null values
(`series.astype(str).replace('\s+','').str.len().mode()[0]`). -/
def modeStrLen (nn : List Val) : ℕ :=
  modeVal (nn.map (fun v => (strRep v).length))

/-- Modelled from the spec: `pd.to_numeric(col, errors='ignore')` — the whole
column converts when every non-null value coerces, otherwise it is returned
unchanged. -/
def toNumericCol (vals : List Cell) : List Cell :=
  if (dropna vals).all (fun v => (parseNumVal v).isSome) then
    vals.map (fun c => c.bind (fun v => (parseNumVal v).map Val.vnum))
  else vals

/-- Modelled from the spec: `pd.to_datetime(col, errors='ignore')` — the
whole column converts when every non-null value parses, otherwise it is
returned unchanged. -/
def toDatetimeCol (vals : List Cell) : List Cell :=
  if (dropna vals).all (fun v => (parseDateVal v).isSome) then
    vals.map (fun c => c.bind (fun v => (parseDateVal v).map Val.vdate))
  else vals

/-- Column pass of `__prepare.convert_dtypes` (basic variant): numeric
coercion on every column, then datetime parsing on the columns that are
still object dtype (the final `fillna(pd.NaT)` is the identity here). -/
def prepareCol (vals : List Cell) : List Cell :=
  let v1 := toNumericCol vals
  if colDtype v1 = .obj then toDatetimeCol v1 else v1

/-- `__prepare` of the basic variant: dtype conversion of every column. -/
def prepare (t : Table) : Table :=
  { t with cols := t.cols.map (fun c => (c.1, prepareCol c.2)) }

/-- Errors raised by the basic variant; the top-level handler catches any of
them, logs, and produces no output table. -/
inductive JoinError where
  | noInput
  | oneColumn
  | noJoinKey
  | keyError
deriving DecidableEq

/-- Cross product of two column-name lists in the enumeration order of
`np.array(np.meshgrid(a, b)).T.reshape(-1, 2)`: for each left column, every
right column. -/
def crossPairs (xs ys : List String) : List (String × String) :=
  xs.flatMap (fun x => ys.map (fun y => (x, y)))

/-- Loop body of `__join_key` (basic variant) for one column pair: the pair
survives the `non_empty`, `check_length` and `check_dtype` pre-filters and
is scored by `len(set1.intersection(set2)) / max(len(main_df),
len(other_df))`.  The Python sets are taken over the full columns, but since
NaN objects never compare equal across the two frames the intersection
coincides with the intersection of the non-null value sets used here. -/
def joinKeyScore1 (main other : Table) (pr : String × String) :
    Option ((String × String) × ℚ) :=
  if (dropna (main.col pr.1)).isEmpty || (dropna (other.col pr.2)).isEmpty then
    none
  else if modeStrLen (dropna (main.col pr.1)) ≠
      modeStrLen (dropna (other.col pr.2)) then none
  else if colDtype (main.col pr.1) ≠ colDtype (other.col pr.2) then none
  else some (pr,
    (((dropna (main.col pr.1)).toFinset ∩
      (dropna (other.col pr.2)).toFinset).card : ℚ) /
    (Nat.max main.nRows other.nRows : ℚ))

/-- Candidate scores of `__join_key` over the full column cross product. -/
def joinKeyScores (main other : Table) (columns : List String) :
    List ((String × String) × ℚ) :=
  (crossPairs columns other.header).filterMap (joinKeyScore1 main other)

/-- Insert into a weakly descending list, before the first entry of equal or
smaller score; with `sortDesc` this models stable descending sort. -/
def insertDesc {α β : Type} [LinearOrder β] (x : α × β) :
    List (α × β) → List (α × β)
  | [] => [x]
  | y :: ys => if y.2 ≤ x.2 then x :: y :: ys else y :: insertDesc x ys

/-- Stable descending sort by score
(`sorted(d.items(), key=item[1], reverse=True)`). -/
def sortDesc {α β : Type} [LinearOrder β] (l : List (α × β)) : List (α × β) :=
  l.foldr insertDesc []

/-- Dynamic acceptance threshold of `__join_key`:
`math.floor((len(other_df) / max(len(main_df), len(other_df))) * 10) / 10`. -/
def joinKeyThreshold (main other : Table) : ℚ :=
  (⌊((other.nRows : ℚ) / (Nat.max main.nRows other.nRows : ℚ)) * 10⌋ : ℚ) / 10

/-- Surviving candidates of `__join_key`:
`{k: v for k, v in sorted_intersection if v >= intersection_threshold}`. -/
def joinKeyPossible (main other : Table) (columns : List String) :
    List ((String × String) × ℚ) :=
  (sortDesc (joinKeyScores main other columns)).filter
    (fun p => joinKeyThreshold main other ≤ p.2)

/-- Key resolution shared by both variants: unzip the surviving pairs and
truncate both sides to `min(len(set(left_key)), len(set(right_key)))`. -/
def resolveKeys {β : Type} (possible : List ((String × String) × β)) :
    List String × List String :=
  let lk := possible.map (fun p => p.1.1)
  let rk := possible.map (fun p => p.1.2)
  let m := Nat.min lk.dedup.length rk.dedup.length
  (lk.take m, rk.take m)

/-- `__join_key` of the basic variant: score, threshold-filter, and resolve;
raises when no candidate survives. -/
def joinKey (main other : Table) (columns : List String) :
    Except JoinError (List String × List String) :=
  let possible := joinKeyPossible main other columns
  if possible.isEmpty then .error .noJoinKey
  else .ok (resolveKeys possible)

/-- Join modes accepted by the engine. -/
inductive How where
  | left
  | inner
  | outer
deriving DecidableEq

/-- Key tuple of row `i` of table `t` on the key columns `onCols`. -/
def rowKey (t : Table) (onCols : List String) (i : ℕ) : List Cell :=
  onCols.map (fun c => (t.col c).getD i none)

/-- Right-row indices whose key tuple equals left row `i`'s key tuple. -/
def mergeMatches (L R : Table) (lOn rOn : List String) (i : ℕ) : List ℕ :=
  (List.range R.nRows).filter (fun j =>
    rowKey R rOn j == rowKey L lOn i)

/-- Row-pairing plan of a left outer join: every left row paired with each
matching right row, or with a null pad when none matches. -/
def planLeftRows (L R : Table) (lOn rOn : List String) :
    List (Option ℕ × Option ℕ) :=
  (List.range L.nRows).flatMap (fun i =>
    match mergeMatches L R lOn rOn i with
    | [] => [(some i, none)]
    | js => js.map (fun j => (some i, some j)))

/-- Row-pairing plan of an inner join: only matching pairs. -/
def planInnerRows (L R : Table) (lOn rOn : List String) :
    List (Option ℕ × Option ℕ) :=
  (List.range L.nRows).flatMap (fun i =>
    (mergeMatches L R lOn rOn i).map (fun j => (some i, some j)))

/-- Row-pairing plan of a full outer join: the left plan followed by the
unmatched right rows. -/
def planOuterRows (L R : Table) (lOn rOn : List String) :
    List (Option ℕ × Option ℕ) :=
  planLeftRows L R lOn rOn ++
    ((List.range R.nRows).filter (fun j =>
      !((List.range L.nRows).any (fun i =>
        rowKey R rOn j == rowKey L lOn i)))).map (fun j => (none, some j))

/-- Row-pairing plan for the requested join mode. -/
def mergePlan (how : How) (L R : Table) (lOn rOn : List String) :
    List (Option ℕ × Option ℕ) :=
  match how with
  | .left => planLeftRows L R lOn rOn
  | .inner => planInnerRows L R lOn rOn
  | .outer => planOuterRows L R lOn rOn

/-- Right-side column renaming of `pd.merge`: names colliding with a left
column receive the right suffix. -/
def suffixName (leftNames : List String) (sfx n : String) : String :=
  if n ∈ leftNames then n ++ sfx else n

/-- Modelled from the spec: the external equi-join primitive `pd.merge`
(spec 1: "given two tables and a list of matching column-name pairs and a
join mode, produce the merged table with standard relational semantics").
Left columns keep their names; colliding right columns are suffixed. -/
def mergeTables (how : How) (L R : Table) (lOn rOn : List String)
    (sfx : String) : Table :=
  let plan := mergePlan how L R lOn rOn
  { name := L.name
    nRows := plan.length
    cols :=
      L.cols.map (fun c =>
        (c.1, plan.map (fun p => p.1.bind (fun i => c.2.getD i none)))) ++
      R.cols.map (fun c =>
        (suffixName L.header sfx c.1,
          plan.map (fun p => p.2.bind (fun j => c.2.getD j none)))) }

/-- Run-unique temporary-column tag; models the process-wide random
`config.setting['UUID']` hex of the basic variant. -/
def uuidTag : String := "u01dfe2_"

/-- Temporary join-column name `f'{UUID}_{key}'`. -/
def tmpName (k : String) : String := uuidTag ++ "_" ++ k

/-- Whitespace removal `series.replace('\s+', '', regex=True)`: the regex
applies to text values; numeric and datetime values are unchanged. -/
def stripWsVal : Val → Val
  | .vstr s => .vstr (String.mk (s.data.filter (fun c => !c.isWhitespace)))
  | v => v

/-- Column assignment `df[n] = vals`: replace in place when the name exists,
append otherwise. -/
def setCol (t : Table) (n : String) (vals : List Cell) : Table :=
  if n ∈ t.header then
    { t with cols := t.cols.map (fun c => if c.1 = n then (n, vals) else c) }
  else
    { t with cols := t.cols ++ [(n, vals)] }

/-- `__prepare_join_key`: for each key add the whitespace-stripped temporary
join column, collecting the temporary names. -/
def prepareJoinKey (t : Table) (keys : List String) : Table × List String :=
  keys.foldl (fun acc k =>
    (setCol acc.1 (tmpName k) ((acc.1.col k).map (Option.map stripWsVal)),
      acc.2 ++ [tmpName k])) (t, [])

/-- `df.drop(columns=names)`: drops every column carrying one of the names;
a name with no matching column raises `KeyError`. -/
def dropColumnsE (t : Table) (names : List String) : Except JoinError Table :=
  if names.all (fun n => n ∈ t.header) then
    .ok { t with cols := t.cols.filter (fun c => !(names.contains c.1)) }
  else .error .keyError

/-- Final cleanup `df.filter(regex=r'^(?!UUID_).+', axis=1)`: keep the
columns whose name does not start with the temporary tag. -/
def dropTmpCols (t : Table) : Table :=
  { t with cols := t.cols.filter (fun c => !(strStartsWith c.1 (uuidTag ++ "_"))) }

/-- One iteration of the basic `join` loop for a non-first dataframe:
single-column check, prepare, key inference against the prepared first
frame, temporary key columns, merge, and dropping the right-side keys. -/
def joinBasicStep (how : How) (mainCopy : Table) (startCols : List String)
    (main : Table) (other0 : Table) : Except JoinError Table := do
  if other0.cols.length = 1 then throw .oneColumn
  let other := prepare other0
  let (lk, rk) ← joinKey mainCopy other startCols
  let (main1, lkT) := prepareJoinKey main lk
  let (other1, rkT) := prepareJoinKey other rk
  let merged := mergeTables how main1 other1 lkT rkT "_joined"
  dropColumnsE merged (rk ++ rkT)

/-- `join` of the basic variant (`src/pandas_auto_join.py`): sequential
merge of the inputs into the first frame; any raised error is caught by the
top-level handler and no table is produced. -/
def joinBasic (how : How) (args : List Table) : Except JoinError Table :=
  match args with
  | [] => .error .noInput
  | t0 :: rest =>
    if t0.cols.length = 1 then .error .oneColumn
    else
      let mainCopy := prepare t0
      match rest with
      | [] => .ok mainCopy
      | _ =>
        (rest.foldlM (joinBasicStep how mainCopy t0.header) mainCopy).map
          dropTmpCols

/-- Helper-column tag of the augmented variant
(`config.setting['JOIN_PREFIX'] = 'joinkey_'`). -/
def joinTag : String := "joinkey_"

/-- `__column_name(df, columns)` of the augmented variant:
`f"{JOIN_PREFIX}{df.index.name}_{columns}"`. -/
def columnTag (t : Table) (c : String) : String :=
  joinTag ++ t.name ++ "_" ++ c

/-- Python's `round` on a rational: round half to even. -/
def pyRound (q : ℚ) : ℤ :=
  let f := ⌊q⌋
  let r := q - (f : ℚ)
  if r < 1 / 2 then f
  else if 1 / 2 < r then f + 1
  else if f % 2 = 0 then f else f + 1

/-- Helper-key columns of a frame: the columns whose name starts with the
join tag (`df.columns.str.startswith(JOIN_PREFIX)`). -/
def helperCols (t : Table) : List String :=
  t.header.filter (fun n => strStartsWith n joinTag)

/-- Candidate scores of `__join_keys` (augmented variant) over the helper
key columns: a pair survives when both sides are object dtype with equal
tag-stripped names, or share a non-object dtype; its score is
`round(score * min(len(series1), len(series2)))` with
`score = len(set1 & set2) / min(len(set1), len(set2))` guarded to `0` when a
value set is empty. -/
def joinKeysScore1 (df1 df2 : Table) (pr : String × String) :
    Option ((String × String) × ℤ) :=
  if ¬(((colDtype (df1.col pr.1) = .obj ∧ colDtype (df2.col pr.2) = .obj) ∧
        strRemoveAll pr.1 (columnTag df1 "") =
          strRemoveAll pr.2 (columnTag df2 "")) ∨
      (colDtype (df1.col pr.1) = colDtype (df2.col pr.2) ∧
        ¬(colDtype (df1.col pr.1) = .obj ∧ colDtype (df2.col pr.2) = .obj)))
  then none
  else some (pr, pyRound (
    (if Nat.min (dropna (df1.col pr.1)).toFinset.card
        (dropna (df2.col pr.2)).toFinset.card = 0 then (0 : ℚ)
      else (((dropna (df1.col pr.1)).toFinset ∩
          (dropna (df2.col pr.2)).toFinset).card : ℚ) /
        (Nat.min (dropna (df1.col pr.1)).toFinset.card
          (dropna (df2.col pr.2)).toFinset.card : ℚ)) *
    (Nat.min (dropna (df1.col pr.1)).length
      (dropna (df2.col pr.2)).length : ℚ)))

/-- Candidate scores of `__join_keys` over the helper-column cross
product. -/
def joinKeysScores (df1 df2 : Table) : List ((String × String) × ℤ) :=
  (crossPairs (helperCols df1) (helperCols df2)).filterMap
    (joinKeysScore1 df1 df2)

/-- `max_overlap` of `__join_keys`: `0` on no candidates, otherwise the
largest score. -/
def maxOverlap {α : Type} : List (α × ℤ) → ℤ
  | [] => 0
  | p :: rest => (rest.map (fun q => q.2)).foldl Max.max p.2

/-- Selection stage of `__join_keys` (augmented variant): sort the scored
candidates descending and keep those with score at least the maximum. -/
def augSelect (scores : List ((String × String) × ℤ)) :
    List ((String × String) × ℤ) :=
  (sortDesc scores).filter (fun p => maxOverlap scores ≤ p.2)

/-- `__join_keys` of the augmented variant: score over helper columns,
keep the maximal candidates, and resolve. -/
def joinKeys (df1 df2 : Table) : Except JoinError (List String × List String) :=
  let possible := augSelect (joinKeysScores df1 df2)
  if possible.isEmpty then .error .noJoinKey
  else .ok (resolveKeys possible)

/-- Datetime pass of `__extract_dtypes.convert_dtypes` for one object
column: `pd.to_datetime(col, errors='coerce')`; when no parse is missing the
helper column is assigned — all `pd.NaT` if every parsed value's date equals
`today`, the parsed dates otherwise; when some value fails to parse nothing
is assigned. -/
def extractDateHelper (today : ℤ) (vals : List Cell) : Option (List Cell) :=
  if (vals.map (fun c => c.bind parseDateVal)).any (fun d => d.isNone) then
    none
  else if (vals.map (fun c => c.bind parseDateVal)).all
      (fun d => d = some today) then
    some (vals.map (fun _ => none))
  else some ((vals.map (fun c => c.bind parseDateVal)).map
    (fun d => d.map Val.vdate))

/-- Datetime helper column after the `dropna(axis=1, how='all')` of
`__extract_dtypes`: an assigned helper survives only when it holds some
non-null value. -/
def keptDateHelper (today : ℤ) (vals : List Cell) : Option (List Cell) :=
  (extractDateHelper today vals).bind (fun c =>
    if c.all (fun x => x.isNone) then none else some c)

/-- Rows of a table, in index order. -/
def rowsOf (t : Table) : List (List Cell) :=
  (List.range t.nRows).map (fun i => t.cols.map (fun c => c.2.getD i none))

/-- Worker for `dropDupRows`: skip rows already seen. -/
def dropDupRowsAux (seen : List (List Cell)) :
    List (List Cell) → List (List Cell)
  | [] => []
  | r :: rs =>
    if seen.contains r then dropDupRowsAux seen rs
    else r :: dropDupRowsAux (r :: seen) rs

/-- `df.drop_duplicates()`: keep the first occurrence of every row. -/
def dropDupRows (l : List (List Cell)) : List (List Cell) :=
  dropDupRowsAux [] l

/-- Row deduplication of a whole table. -/
def dedupTable (t : Table) : Table :=
  let rs := dropDupRows (rowsOf t)
  { name := t.name
    nRows := rs.length
    cols := t.cols.enum.map (fun kc => (kc.2.1, rs.map (fun r => r.getD kc.1 none))) }

/-- Python runtime errors surfacing in the augmented `join`. -/
inductive PyError where
  | nameError
deriving DecidableEq

/-- Embeds line 42 of `pandas_auto_join/__init__.py`:
`if similarity_threshold < 0 or similarity_threshold > 1:`.  The name
`similarity_threshold` is bound nowhere in the module — the parameter is
called `threshold` — so evaluating the condition raises `NameError` before
the value of the argument is ever consulted. -/
def checkSimilarityThreshold (_threshold : ℚ) : Except PyError Unit :=
  .error .nameError

/-- Single-table path of the augmented `join` (lines 41-52 of
`pandas_auto_join/__init__.py`): validate the threshold, then return the
deduplicated frame; the top-level handler turns any raised error into no
result (`none`). -/
def joinAugSingle (t : Table) (threshold : ℚ) : Option Table :=
  match checkSimilarityThreshold threshold with
  | .error _ => none
  | .ok _ => some (dedupTable t)

/-! Spec-side formulas, written from the specification's own words, used to
compare against the source-derived definitions above. -/

/-- Spec formula: the set of a column's values ("set(leftValues)"); NaN
objects never compare equal in Python, so the set relevant to intersection
is the set of non-null values. -/
def specColSet (vals : List Cell) : Finset Val :=
  (vals.filterMap id).toFinset

/-- Spec formula (spec 4.2, basic variant):
"overlapRatio = |set(leftValues) ∩ set(rightValues)| /
max(|mainTable rows|, |otherTable rows|)". -/
def specBasicOverlap (leftVals rightVals : List Cell)
    (mainRows otherRows : ℕ) : ℚ :=
  ((specColSet leftVals ∩ specColSet rightVals).card : ℚ) /
    (Nat.max mainRows otherRows : ℚ)

/-- Spec formula (spec 4.2, set-intersection variant used after
augmentation): "|set(leftValues) ∩ set(rightValues)| /
min(|set(leftValues)|, |set(rightValues)|)". -/
def specAugOverlap (s1 s2 : List Val) : ℚ :=
  ((s1.toFinset ∩ s2.toFinset).card : ℚ) /
    (Nat.min s1.toFinset.card s2.toFinset.card : ℚ)

/-! Helper lemmas. -/

theorem mem_insertDesc {α β : Type} [LinearOrder β] (x z : α × β)
    (l : List (α × β)) : z ∈ insertDesc x l ↔ z = x ∨ z ∈ l := by
  induction l with
  | nil => simp [insertDesc]
  | cons y ys ih =>
    by_cases h : y.2 ≤ x.2
    · simp [insertDesc, h, List.mem_cons]
    · simp only [insertDesc, if_neg h, List.mem_cons, ih]
      tauto

theorem mem_sortDesc {α β : Type} [LinearOrder β] (z : α × β)
    (l : List (α × β)) : z ∈ sortDesc l ↔ z ∈ l := by
  induction l with
  | nil => simp [sortDesc]
  | cons a as ih =>
    simp only [sortDesc, List.foldr_cons] at *
    rw [mem_insertDesc, ih, List.mem_cons]

theorem le_foldl_max (l : List ℤ) (a : ℤ) : a ≤ l.foldl Max.max a := by
  induction l generalizing a with
  | nil => simp
  | cons x xs ih => exact le_trans (le_max_left a x) (ih (max a x))

theorem mem_le_foldl_max (l : List ℤ) (a b : ℤ) (h : b ∈ l) :
    b ≤ l.foldl Max.max a := by
  induction l generalizing a with
  | nil => cases h
  | cons x xs ih =>
    rcases List.mem_cons.mp h with rfl | h2
    · exact le_trans (le_max_right a b) (le_foldl_max xs (max a b))
    · exact ih (max a x) h2

theorem le_maxOverlap {α : Type} (scores : List (α × ℤ)) (p : α × ℤ)
    (h : p ∈ scores) : p.2 ≤ maxOverlap scores := by
  cases scores with
  | nil => cases h
  | cons q rest =>
    rcases List.mem_cons.mp h with rfl | h2
    · exact le_foldl_max _ _
    · exact mem_le_foldl_max _ _ _ (List.mem_map_of_mem _ h2)

theorem length_le_length_flatMap {α β : Type} (l : List α) (f : α → List β)
    (h : ∀ a ∈ l, 1 ≤ (f a).length) : l.length ≤ (l.flatMap f).length := by
  induction l with
  | nil => simp
  | cons a as ih =>
    simp only [List.flatMap_cons, List.length_append, List.length_cons]
    have h1 := h a (List.mem_cons_self a as)
    have h2 := ih (fun b hb => h b (List.mem_cons_of_mem _ hb))
    omega

theorem length_flatMap_eq_length {α β : Type} (l : List α) (f : α → List β)
    (h : ∀ a ∈ l, (f a).length = 1) : (l.flatMap f).length = l.length := by
  induction l with
  | nil => simp
  | cons a as ih =>
    simp only [List.flatMap_cons, List.length_append, List.length_cons]
    rw [h a (List.mem_cons_self a as),
      ih (fun b hb => h b (List.mem_cons_of_mem _ hb))]
    omega

/-! Claim C1: row count of a left merge. -/

/-- Left table of the C1 counterexample: one row keyed "a". -/
def c1Left : Table :=
  { name := "L", nRows := 1,
    cols := [("k", [some (Val.vstr "a")]), ("v", [some (Val.vstr "x")])] }

/-- Right table of the C1 counterexample: two rows both keyed "a". -/
def c1Right : Table :=
  { name := "R", nRows := 2,
    cols := [("k", [some (Val.vstr "a"), some (Val.vstr "a")]),
             ("w", [some (Val.vstr "y"), some (Val.vstr "z")])] }

/-- C1 counterexample: with `how='left'` and a right table holding two rows
for the same key, the merged output has 2 rows while the left table has 1,
so the output row count does not equal the left row count. -/
theorem c1_left_merge_rowcount_cex :
    (mergeTables .left c1Left c1Right ["k"] ["k"] "_joined").nRows ≠
      c1Left.nRows := by decide

/-- C1 (amended): for every merge step executed with `how='left'`, the row
count of the merged output is at least the left table's row count, and it
equals the left table's row count when every left row matches at most one
right row on the resolved keys. -/
theorem c1_left_merge_rowcount (L R : Table) (lOn rOn : List String)
    (sfx : String) :
    L.nRows ≤ (mergeTables .left L R lOn rOn sfx).nRows ∧
    ((∀ i, i < L.nRows → (mergeMatches L R lOn rOn i).length ≤ 1) →
      (mergeTables .left L R lOn rOn sfx).nRows = L.nRows) := by
  have hrows : (mergeTables .left L R lOn rOn sfx).nRows =
      (planLeftRows L R lOn rOn).length := rfl
  constructor
  · rw [hrows]
    have h := length_le_length_flatMap (List.range L.nRows)
      (fun i =>
        match mergeMatches L R lOn rOn i with
        | [] => [(some i, none)]
        | js => js.map (fun j => (some i, some j)))
      (by
        intro a _
        cases hm : mergeMatches L R lOn rOn a with
        | nil => simp [hm]
        | cons j js => simp [hm])
    simpa [planLeftRows, List.length_range] using h
  · intro h
    rw [hrows]
    have h2 := length_flatMap_eq_length (List.range L.nRows)
      (fun i =>
        match mergeMatches L R lOn rOn i with
        | [] => [(some i, none)]
        | js => js.map (fun j => (some i, some j)))
      (by
        intro a ha
        have hlt : a < L.nRows := List.mem_range.mp ha
        have hle := h a hlt
        cases hm : mergeMatches L R lOn rOn a with
        | nil => simp [hm]
        | cons j js =>
          rw [hm] at hle
          simp only [List.length_cons] at hle
          have hjs : js = [] := List.eq_nil_of_length_eq_zero (by omega)
          subst hjs
          simp [hm])
    simpa [planLeftRows, List.length_range] using h2

/-- Left table of the C1 witness: two rows with distinct keys. -/
def c1wLeft : Table :=
  { name := "L", nRows := 2,
    cols := [("k", [some (Val.vstr "a"), some (Val.vstr "b")]),
             ("v", [some (Val.vstr "x"), some (Val.vstr "y")])] }

/-- Right table of the C1 witness: one row keyed "a". -/
def c1wRight : Table :=
  { name := "R", nRows := 1,
    cols := [("k", [some (Val.vstr "a")]), ("w", [some (Val.vstr "z")])] }

/-- Witness for C1: on tables where every left row matches at most one right
row, the left-merge output row count equals the left row count. -/
theorem c1_left_merge_rowcount_witness :
    (mergeTables .left c1wLeft c1wRight ["k"] ["k"] "_joined").nRows =
      c1wLeft.nRows :=
  (c1_left_merge_rowcount c1wLeft c1wRight ["k"] ["k"] "_joined").2 (by decide)

/-! Claim C2: threshold validation of the augmented `join`. -/

/-- C2: the threshold validation of the augmented `join` fails on every
call, including all thresholds inside [0,1], because line 42 reads the
unbound name `similarity_threshold`: the whole call aborts with no result
before any merging. -/
theorem c2_threshold_validation_always_fails (t : Table) (threshold : ℚ)
    (_h0 : 0 ≤ threshold) (_h1 : threshold ≤ 1) :
    joinAugSingle t threshold = none := rfl

/-- Table used by the C2 witness. -/
def c2Table : Table :=
  { name := "df0", nRows := 1,
    cols := [("a", [some (Val.vstr "x")]), ("b", [some (Val.vstr "y")])] }

/-- Witness for C2: the in-range threshold 1/2 satisfies the bounds and the
call still produces no result. -/
theorem c2_threshold_validation_always_fails_witness :
    (0 : ℚ) ≤ 1 / 2 ∧ (1 : ℚ) / 2 ≤ 1 ∧
      joinAugSingle c2Table (1 / 2) = none :=
  ⟨by norm_num, by norm_num,
    c2_threshold_validation_always_fails c2Table (1 / 2) (by norm_num)
      (by norm_num)⟩

/-! Claim C10: deduplication and the single-table path of the augmented
`join`. -/

/-- Table used by C10: three rows of which two are identical. -/
def c10Table : Table :=
  { name := "df0", nRows := 3,
    cols := [("a", [some (Val.vstr "x"), some (Val.vstr "x"),
                    some (Val.vstr "z")]),
             ("b", [some (Val.vstr "y"), some (Val.vstr "y"),
                    some (Val.vstr "w")])] }

/-- C10: calling the augmented `join` with exactly one table returns no
result at all (the unbound `similarity_threshold` of line 42 raises
`NameError` first), even though the deduplication it was meant to perform
would shrink the example table from 3 rows to 2. -/
theorem c10_single_table_path_fails :
    joinAugSingle c10Table (1 / 2) = none ∧
      (dedupTable c10Table).nRows = 2 ∧ c10Table.nRows = 3 := by
  refine ⟨rfl, ?_, rfl⟩
  decide

/-! Claim C3: dynamic threshold of the basic selector. -/

/-- C3: the acceptance threshold of the basic selector equals
`floor((otherRows / max(mainRows, otherRows)) * 10) / 10`, and the surviving
candidates are exactly the scored candidates whose overlap ratio is at least
this threshold. -/
theorem c3_basic_threshold_and_filter (main other : Table)
    (columns : List String) (p : (String × String) × ℚ) :
    joinKeyThreshold main other =
      (⌊((other.nRows : ℚ) / (Nat.max main.nRows other.nRows : ℚ)) * 10⌋ : ℚ)
        / 10 ∧
    (p ∈ joinKeyPossible main other columns ↔
      p ∈ joinKeyScores main other columns ∧
        joinKeyThreshold main other ≤ p.2) := by
  refine ⟨rfl, ?_⟩
  unfold joinKeyPossible
  rw [List.mem_filter, mem_sortDesc]
  simp

/-! Claim C4: max-score selection of the augmented selector. -/

/-- C4: on a non-empty list of scored candidates the augmented selector
keeps exactly the candidates whose score equals the maximum observed score,
so every tie is retained and no lower-scored candidate survives. -/
theorem c4_aug_selector_keeps_max (scores : List ((String × String) × ℤ))
    (p : (String × String) × ℤ) (_hne : scores ≠ []) :
    p ∈ augSelect scores ↔ p ∈ scores ∧ p.2 = maxOverlap scores := by
  unfold augSelect
  rw [List.mem_filter, mem_sortDesc]
  constructor
  · rintro ⟨hmem, hge⟩
    have hle := le_maxOverlap scores p hmem
    have hge2 : maxOverlap scores ≤ p.2 := of_decide_eq_true hge
    exact ⟨hmem, le_antisymm hle hge2⟩
  · rintro ⟨hmem, heq⟩
    exact ⟨hmem, decide_eq_true (le_of_eq heq.symm)⟩

/-- Scored candidates used by the C4 witness. -/
def c4Scores : List ((String × String) × ℤ) :=
  [(("a", "b"), 3), (("c", "d"), 5)]

/-- Witness for C4: the maximal candidate of a concrete non-empty score list
is kept by the augmented selector. -/
theorem c4_aug_selector_keeps_max_witness :
    (("c", "d"), (5 : ℤ)) ∈ augSelect c4Scores :=
  (c4_aug_selector_keeps_max c4Scores (("c", "d"), 5) (by decide)).mpr
    (by decide)

/-! Characterizations of the two scorers. -/

theorem mem_crossPairs (xs ys : List String) (x y : String) :
    (x, y) ∈ crossPairs xs ys ↔ x ∈ xs ∧ y ∈ ys := by
  unfold crossPairs
  simp only [List.mem_flatMap, List.mem_map, Prod.mk.injEq]
  constructor
  · rintro ⟨a, ha, b, hb, rfl, rfl⟩
    exact ⟨ha, hb⟩
  · rintro ⟨hx, hy⟩
    exact ⟨x, hx, y, hy, rfl, rfl⟩

theorem joinKeyScore1_eq_some (main other : Table) (pr : String × String)
    (q : (String × String) × ℚ) (h : joinKeyScore1 main other pr = some q) :
    q.1 = pr ∧ q.2 = specBasicOverlap (main.col pr.1) (other.col pr.2)
      main.nRows other.nRows := by
  unfold joinKeyScore1 at h
  split_ifs at h with h1 h2 h3
  obtain rfl := Option.some.inj h
  exact ⟨rfl, rfl⟩

theorem joinKeyScore1_isSome_iff (main other : Table) (pr : String × String) :
    (joinKeyScore1 main other pr).isSome = true ↔
      ¬(dropna (main.col pr.1) = [] ∨ dropna (other.col pr.2) = [] ∨
        modeStrLen (dropna (main.col pr.1)) ≠
          modeStrLen (dropna (other.col pr.2)) ∨
        colDtype (main.col pr.1) ≠ colDtype (other.col pr.2)) := by
  unfold joinKeyScore1
  split_ifs with h1 h2 h3
  · simp only [Option.isSome_none, Bool.false_eq_true, false_iff, not_not]
    rcases Bool.or_eq_true_iff.mp h1 with he | he
    · exact Or.inl (List.isEmpty_iff.mp he)
    · exact Or.inr (Or.inl (List.isEmpty_iff.mp he))
  · simp only [Option.isSome_none, Bool.false_eq_true, false_iff, not_not]
    exact Or.inr (Or.inr (Or.inl h2))
  · simp only [Option.isSome_none, Bool.false_eq_true, false_iff, not_not]
    exact Or.inr (Or.inr (Or.inr h3))
  · simp only [Option.isSome_some, true_iff]
    push_neg
    refine ⟨?_, ?_, not_not.mp h2, not_not.mp h3⟩
    · intro he
      exact h1 (Bool.or_eq_true_iff.mpr (Or.inl (List.isEmpty_iff.mpr he)))
    · intro he
      exact h1 (Bool.or_eq_true_iff.mpr (Or.inr (List.isEmpty_iff.mpr he)))

theorem joinKeysScore1_eq_some (df1 df2 : Table) (pr : String × String)
    (q : (String × String) × ℤ) (h : joinKeysScore1 df1 df2 pr = some q) :
    q.1 = pr ∧ q.2 = pyRound (specAugOverlap (dropna (df1.col pr.1))
      (dropna (df2.col pr.2)) *
      (Nat.min (dropna (df1.col pr.1)).length
        (dropna (df2.col pr.2)).length : ℚ)) := by
  unfold joinKeysScore1 at h
  split_ifs at h with hpass hzero
  · obtain rfl := Option.some.inj h
    refine ⟨rfl, ?_⟩
    unfold specAugOverlap
    rw [hzero]
    norm_num
  · obtain rfl := Option.some.inj h
    exact ⟨rfl, rfl⟩

theorem mem_joinKeyScores_iff (main other : Table) (columns : List String)
    (c1 c2 : String) :
    (∃ v, ((c1, c2), v) ∈ joinKeyScores main other columns) ↔
      ((c1, c2) ∈ crossPairs columns other.header ∧
        (joinKeyScore1 main other (c1, c2)).isSome = true) := by
  constructor
  · rintro ⟨v, hv⟩
    rw [joinKeyScores, List.mem_filterMap] at hv
    obtain ⟨a, ha, hfa⟩ := hv
    have hkey : (c1, c2) = a := (joinKeyScore1_eq_some main other a _ hfa).1
    subst hkey
    exact ⟨ha, by rw [hfa]; rfl⟩
  · rintro ⟨hmem, hsome⟩
    obtain ⟨q, hq⟩ := Option.isSome_iff_exists.mp hsome
    have hkey : q.1 = (c1, c2) :=
      (joinKeyScore1_eq_some main other (c1, c2) q hq).1
    refine ⟨q.2, ?_⟩
    rw [joinKeyScores, List.mem_filterMap]
    refine ⟨(c1, c2), hmem, ?_⟩
    rw [hq, ← hkey]

/-! Claim C5: the overlap-ratio formulas of the two scorers. -/

/-- C5: every basic-variant score equals
`|set(leftValues) ∩ set(rightValues)| / max(mainRows, otherRows)`, and
every augmented-variant score is the Python rounding of
`|set(leftValues) ∩ set(rightValues)| / min(|set(leftValues)|,
|set(rightValues)|)` scaled by the smaller non-null count. -/
theorem c5_overlap_ratio_formulas :
    (∀ (main other : Table) (columns : List String) (c1 c2 : String) (v : ℚ),
      ((c1, c2), v) ∈ joinKeyScores main other columns →
        v = specBasicOverlap (main.col c1) (other.col c2)
          main.nRows other.nRows) ∧
    (∀ (df1 df2 : Table) (c1 c2 : String) (v : ℤ),
      ((c1, c2), v) ∈ joinKeysScores df1 df2 →
        v = pyRound (specAugOverlap (dropna (df1.col c1))
          (dropna (df2.col c2)) *
          (Nat.min (dropna (df1.col c1)).length
            (dropna (df2.col c2)).length : ℚ))) := by
  constructor
  · intro main other columns c1 c2 v hv
    rw [joinKeyScores, List.mem_filterMap] at hv
    obtain ⟨a, _, hfa⟩ := hv
    obtain ⟨hkey, hval⟩ := joinKeyScore1_eq_some main other a _ hfa
    have hkey2 : (c1, c2) = a := hkey
    subst hkey2
    exact hval
  · intro df1 df2 c1 c2 v hv
    rw [joinKeysScores, List.mem_filterMap] at hv
    obtain ⟨a, _, hfa⟩ := hv
    obtain ⟨hkey, hval⟩ := joinKeysScore1_eq_some df1 df2 a _ hfa
    have hkey2 : (c1, c2) = a := hkey
    subst hkey2
    exact hval

/-- Tables used by the C5 witness, basic side: a shared length-1 text key
column. -/
def c5Main : Table :=
  { name := "DF0", nRows := 1,
    cols := [("id", [some (Val.vstr "a")]), ("v", [some (Val.vstr "b")])] }

/-- Other table of the C5 witness, basic side. -/
def c5Other : Table :=
  { name := "DF1", nRows := 1,
    cols := [("id2", [some (Val.vstr "a")]), ("w", [some (Val.vstr "c")])] }

/-- First frame of the C5 witness, augmented side: one helper key column. -/
def c5Df1 : Table :=
  { name := "df0", nRows := 1,
    cols := [("joinkey_df0_x", [some (Val.vstr "a")]),
             ("x", [some (Val.vstr "a")])] }

/-- Second frame of the C5 witness, augmented side. -/
def c5Df2 : Table :=
  { name := "df1", nRows := 1,
    cols := [("joinkey_df1_x", [some (Val.vstr "a")]),
             ("x", [some (Val.vstr "a")])] }

/-- Witness for C5: concrete scored pairs of both variants carry exactly the
spec formulas' values. -/
theorem c5_overlap_ratio_formulas_witness :
    (1 : ℚ) = specBasicOverlap (c5Main.col "id") (c5Other.col "id2")
      c5Main.nRows c5Other.nRows ∧
    (1 : ℤ) = pyRound (specAugOverlap (dropna (c5Df1.col "joinkey_df0_x"))
      (dropna (c5Df2.col "joinkey_df1_x")) *
      (Nat.min (dropna (c5Df1.col "joinkey_df0_x")).length
        (dropna (c5Df2.col "joinkey_df1_x")).length : ℚ)) :=
  ⟨c5_overlap_ratio_formulas.1 c5Main c5Other ["id", "v"] "id" "id2" 1
      (by with_unfolding_all decide),
    c5_overlap_ratio_formulas.2 c5Df1 c5Df2 "joinkey_df0_x" "joinkey_df1_x" 1
      (by with_unfolding_all decide)⟩

/-! Claim C6: the pre-filters of the basic scorer. -/

/-- C6: a column pair enumerated by the basic scorer is skipped if and only
if one column's non-null values are empty, or the representative (mode)
string lengths differ, or the column dtypes differ; every other pair
receives a score. -/
theorem c6_basic_prefilters (main other : Table) (columns : List String)
    (c1 c2 : String) (h1 : c1 ∈ columns) (h2 : c2 ∈ other.header) :
    (¬∃ v, ((c1, c2), v) ∈ joinKeyScores main other columns) ↔
      (dropna (main.col c1) = [] ∨ dropna (other.col c2) = [] ∨
        modeStrLen (dropna (main.col c1)) ≠
          modeStrLen (dropna (other.col c2)) ∨
        colDtype (main.col c1) ≠ colDtype (other.col c2)) := by
  rw [mem_joinKeyScores_iff, joinKeyScore1_isSome_iff]
  have hcp : (c1, c2) ∈ crossPairs columns other.header :=
    (mem_crossPairs columns other.header c1 c2).mpr ⟨h1, h2⟩
  tauto

/-- Witness for C6: on a concrete enumerated pair with compatible columns,
the scorer assigns a score (the pair is not skipped). -/
theorem c6_basic_prefilters_witness :
    ∃ v, (("id", "id2"), v) ∈ joinKeyScores c5Main c5Other ["id", "v"] := by
  have h := c6_basic_prefilters c5Main c5Other ["id", "v"] "id" "id2"
    (by decide) (by decide)
  by_contra hc
  exact absurd (h.mp hc) (by with_unfolding_all decide)

/-! Claim C9: the current-date edge case of the augmented type
normalization. -/

/-- C9: for a text column of the augmented variant, when every value parses
as a datetime the parse is kept as the derived datetime column unless every
parsed value equals the current date, in which case the derived column is
all-null and dropped (treated as absent); when any value fails to parse no
derived column is created and the column stays text. -/
theorem c9_datetime_today_edge (today : ℤ) (vals : List Cell) :
    ((∀ d ∈ vals.map (fun c => c.bind parseDateVal), d.isSome = true) →
      ((∀ d ∈ vals.map (fun c => c.bind parseDateVal), d = some today) →
          keptDateHelper today vals = none) ∧
        ((∃ d ∈ vals.map (fun c => c.bind parseDateVal), d ≠ some today) →
          keptDateHelper today vals =
            some ((vals.map (fun c => c.bind parseDateVal)).map
              (fun d => d.map Val.vdate)))) ∧
    ((∃ d ∈ vals.map (fun c => c.bind parseDateVal), d = none) →
      extractDateHelper today vals = none) := by
  constructor
  · intro hAll
    have hnone : ((vals.map (fun c => c.bind parseDateVal)).any
        (fun d => d.isNone)) = false := by
      rw [Bool.eq_false_iff]
      intro hany
      obtain ⟨d, hd, hdn⟩ := List.any_eq_true.mp hany
      have hs := hAll d hd
      rw [Option.isNone_iff_eq_none.mp hdn] at hs
      simp at hs
    constructor
    · intro hToday
      have htrue : ((vals.map (fun c => c.bind parseDateVal)).all
          (fun d => decide (d = some today))) = true := by
        rw [List.all_eq_true]
        intro d hd
        exact decide_eq_true (hToday d hd)
      unfold keptDateHelper extractDateHelper
      rw [hnone]
      simp only [Bool.false_eq_true, if_false, htrue, if_true]
      simp [List.all_eq_true]
    · intro hNotToday
      have hfalse : ((vals.map (fun c => c.bind parseDateVal)).all
          (fun d => decide (d = some today))) = false := by
        rw [Bool.eq_false_iff]
        intro hall
        obtain ⟨d, hd, hdne⟩ := hNotToday
        exact hdne (of_decide_eq_true (List.all_eq_true.mp hall d hd))
      unfold keptDateHelper extractDateHelper
      rw [hnone]
      simp only [Bool.false_eq_true, if_false, hfalse, if_true]
      rw [Option.some_bind]
      obtain ⟨d, hd, hdne⟩ := hNotToday
      obtain ⟨x, hx⟩ := Option.isSome_iff_exists.mp (hAll d hd)
      rw [if_neg]
      intro hallnone
      have hmem : (some (Val.vdate x) : Cell) ∈
          (vals.map (fun c => c.bind parseDateVal)).map
            (fun d => d.map Val.vdate) := by
        refine List.mem_map.mpr ⟨d, hd, ?_⟩
        rw [hx]
        rfl
      have hcontra := List.all_eq_true.mp hallnone _ hmem
      simp at hcontra
  · intro hfail
    have hany : ((vals.map (fun c => c.bind parseDateVal)).any
        (fun d => d.isNone)) = true := by
      rw [List.any_eq_true]
      obtain ⟨d, hd, hdn⟩ := hfail
      exact ⟨d, hd, by rw [hdn]; rfl⟩
    unfold extractDateHelper
    rw [hany]
    simp

/-- Column used by the C9 witness: a single parseable date distinct from
the reference "today". -/
def c9Vals : List Cell := [some (Val.vstr "2024-01-02")]

/-- Witness for C9: a fully parsed column whose date differs from today is
kept as the derived datetime column. -/
theorem c9_datetime_today_edge_witness :
    keptDateHelper 999 c9Vals =
      some ((c9Vals.map (fun c => c.bind parseDateVal)).map
        (fun d => d.map Val.vdate)) :=
  ((c9_datetime_today_edge 999 c9Vals).1 (by decide)).2
    ⟨some 20240102, by decide, by decide⟩

/-! Claim C7: single-column tables abort the whole operation. -/

theorem foldlM_error_of_one_col (how : How) (mainCopy : Table)
    (sc : List String) (rest : List Table) :
    ∀ main : Table, (∃ t ∈ rest, t.cols.length = 1) →
      ∃ e, rest.foldlM (joinBasicStep how mainCopy sc) main = .error e := by
  induction rest with
  | nil =>
    rintro main ⟨t, ht, _⟩
    cases ht
  | cons o os ih =>
    rintro main ⟨t, ht, ht1⟩
    rw [List.foldlM_cons]
    rcases List.mem_cons.mp ht with rfl | hos
    · have hstep : joinBasicStep how mainCopy sc main t = .error .oneColumn := by
        unfold joinBasicStep
        rw [if_pos ht1]
        rfl
      rw [hstep]
      exact ⟨.oneColumn, rfl⟩
    · cases hstep : joinBasicStep how mainCopy sc main o with
      | error e => exact ⟨e, rfl⟩
      | ok m2 =>
        obtain ⟨e, he⟩ := ih m2 ⟨t, hos, ht1⟩
        exact ⟨e, he⟩

/-- C7 (amended): whenever any input table of the basic `join` has exactly
one column, the whole operation aborts with an error and produces no merged
table; the error is the one-column ("nothing to join") abort whenever the
offending table is reached, in particular always when it comes first, but an
earlier pairwise failure (such as no candidate key) may abort the run with
its own error before the single-column check executes. -/
theorem c7_one_column_aborts :
    (∀ (how : How) (args : List Table), (∃ t ∈ args, t.cols.length = 1) →
      ∃ e, joinBasic how args = .error e) ∧
    (∀ (how : How) (t0 : Table) (rest : List Table), t0.cols.length = 1 →
      joinBasic how (t0 :: rest) = .error .oneColumn) := by
  have hfirst : ∀ (how : How) (t0 : Table) (rest : List Table),
      t0.cols.length = 1 → joinBasic how (t0 :: rest) = .error .oneColumn := by
    intro how t0 rest h1
    unfold joinBasic
    dsimp only
    rw [if_pos h1]
  refine ⟨?_, hfirst⟩
  rintro how args ⟨t, htmem, ht1⟩
  cases args with
  | nil => cases htmem
  | cons t0 rest =>
    by_cases h0 : t0.cols.length = 1
    · exact ⟨.oneColumn, hfirst how t0 rest h0⟩
    · rcases List.mem_cons.mp htmem with rfl | hrest
      · exact absurd ht1 h0
      · cases rest with
        | nil => cases hrest
        | cons r rs =>
          obtain ⟨e, he⟩ := foldlM_error_of_one_col how (prepare t0) t0.header
            (r :: rs) (prepare t0) ⟨t, hrest, ht1⟩
          refine ⟨e, ?_⟩
          unfold joinBasic
          dsimp only
          rw [if_neg h0, he]
          rfl

/-- First table of the C7 input: two one-character text columns. -/
def c7A : Table :=
  { name := "A", nRows := 1,
    cols := [("a1", [some (Val.vstr "p")]), ("a2", [some (Val.vstr "q")])] }

/-- Second table of the C7 counterexample: two two-character text columns,
so no column pair with `c7A` passes the representative-length filter. -/
def c7B : Table :=
  { name := "B", nRows := 1,
    cols := [("b1", [some (Val.vstr "xx")]), ("b2", [some (Val.vstr "yy")])] }

/-- Single-column table of the C7 input. -/
def c7C : Table :=
  { name := "C", nRows := 1, cols := [("c1", [some (Val.vstr "r")])] }

/-- C7 counterexample: with a single-column table third in line but no
candidate key between the first two tables, the operation aborts with the
no-join-key error, not the one-column ("nothing to join") error the claim
names. -/
theorem c7_one_column_aborts_cex :
    joinBasic .inner [c7A, c7B, c7C] = .error .noJoinKey ∧
      c7C ∈ [c7A, c7B, c7C] ∧ c7C.cols.length = 1 ∧
      JoinError.noJoinKey ≠ JoinError.oneColumn := by
  refine ⟨?_, by decide, by decide, by decide⟩
  with_unfolding_all decide

/-- Witness for C7: a run whose single-column table comes second aborts
(with some error), and a run whose single-column table comes first aborts
with exactly the one-column error. -/
theorem c7_one_column_aborts_witness :
    (∃ e, joinBasic .inner [c7A, c7C] = .error e) ∧
      joinBasic .inner [c7C] = .error .oneColumn :=
  ⟨c7_one_column_aborts.1 .inner [c7A, c7C]
      ⟨c7C, by decide, by decide⟩,
    c7_one_column_aborts.2 .inner c7C [] (by decide)⟩

/-! Claim C8: shape of the resolved join-key plan. -/

/-- C8 (amended): the resolved key plan always consists of two lists of
equal length, that common length being the minimum of the number of distinct
left columns chosen and the number of distinct right columns chosen; the
entries within one side need not be unique, since truncation only shortens
the lists. -/
theorem c8_joinkeyplan_lengths :
    (∀ (β : Type) (possible : List ((String × String) × β)),
      (resolveKeys possible).1.length =
        Nat.min (possible.map (fun p => p.1.1)).dedup.length
          (possible.map (fun p => p.1.2)).dedup.length ∧
      (resolveKeys possible).2.length =
        Nat.min (possible.map (fun p => p.1.1)).dedup.length
          (possible.map (fun p => p.1.2)).dedup.length) ∧
    (∀ (main other : Table) (columns : List String) (lk rk : List String),
      joinKey main other columns = .ok (lk, rk) → lk.length = rk.length) := by
  have hlen : ∀ (β : Type) (possible : List ((String × String) × β)),
      (resolveKeys possible).1.length =
        Nat.min (possible.map (fun p => p.1.1)).dedup.length
          (possible.map (fun p => p.1.2)).dedup.length ∧
      (resolveKeys possible).2.length =
        Nat.min (possible.map (fun p => p.1.1)).dedup.length
          (possible.map (fun p => p.1.2)).dedup.length := by
    intro β possible
    have h1 : (possible.map (fun p => p.1.1)).dedup.length ≤
        (possible.map (fun p => p.1.1)).length :=
      (List.dedup_sublist _).length_le
    have h2 : (possible.map (fun p => p.1.2)).dedup.length ≤
        (possible.map (fun p => p.1.2)).length :=
      (List.dedup_sublist _).length_le
    constructor
    · rw [resolveKeys, List.length_take]
      exact Nat.min_eq_left (le_trans (Nat.min_le_left _ _) h1)
    · rw [resolveKeys, List.length_take]
      exact Nat.min_eq_left (le_trans (Nat.min_le_right _ _) h2)
  refine ⟨hlen, ?_⟩
  intro main other columns lk rk h
  unfold joinKey at h
  dsimp only at h
  split_ifs at h
  obtain h2 := Except.ok.inj h
  have e1 : lk = (resolveKeys (joinKeyPossible main other columns)).1 := by
    rw [h2]
  have e2 : rk = (resolveKeys (joinKeyPossible main other columns)).2 := by
    rw [h2]
  rw [e1, e2, (hlen _ _).1, (hlen _ _).2]

/-- Main table of the C8 counterexample: two text columns over the same two
values. -/
def c8Main : Table :=
  { name := "DF0", nRows := 2,
    cols := [("A", [some (Val.vstr "p"), some (Val.vstr "q")]),
             ("B", [some (Val.vstr "p"), some (Val.vstr "q")])] }

/-- Other table of the C8 counterexample: three text columns over the same
two values, so every pair survives with ratio 1. -/
def c8Other : Table :=
  { name := "DF1", nRows := 2,
    cols := [("X", [some (Val.vstr "p"), some (Val.vstr "q")]),
             ("Y", [some (Val.vstr "p"), some (Val.vstr "q")]),
             ("Z", [some (Val.vstr "p"), some (Val.vstr "q")])] }

/-- C8 counterexample: the selector resolves this instance to the key plan
`(["A", "A"], ["X", "Y"])`, whose left side repeats the column "A" — the
entries of a plan side are not unique. -/
theorem c8_joinkeyplan_uniqueness_cex :
    joinKey c8Main c8Other ["A", "B"] = .ok (["A", "A"], ["X", "Y"]) ∧
      ¬(["A", "A"] : List String).Nodup := by
  refine ⟨?_, by decide⟩
  with_unfolding_all decide

/-- Witness for C8: on a concrete resolved plan the two sides have equal
length. -/
theorem c8_joinkeyplan_lengths_witness :
    joinKey c5Main c5Other ["id", "v"] = .ok (["id"], ["id2"]) ∧
      (["id"] : List String).length = (["id2"] : List String).length :=
  ⟨by with_unfolding_all decide,
    c8_joinkeyplan_lengths.2 c5Main c5Other ["id", "v"] ["id"] ["id2"]
      (by with_unfolding_all decide)⟩

end PandasAutoJoin
